import Mathlib

/-!
Verification of the barcode decoding and product-identity resolution core of the
pharmacy expiry tracker.  JavaScript strings are embedded as `List Char`; the JS
`Map` keyed by strings is embedded as an association list with last-write-wins
`mapSet` and first-hit `mapGet`.  Each definition mirrors one function of the
source (`parseGS1`, `parseExpiryDate`, `buildMasterIndex`, `matchProduct`, and
the `PharmacyMatcher` methods); fallible operations that `throw` in JS return
`Except`.
-/

abbrev Str := List Char

/-- JS string → embedded string. -/
def s2l (s : String) : Str := s.data

/-- ASCII whitespace recognized by `String.prototype.trim` (the inputs in the
claims contain at most these). -/
def isWS (c : Char) : Bool :=
  c == ' ' || c == '\t' || c == '\n' || c == '\r' || c == '\x0b' || c == '\x0c'

/-- Embeds `String.prototype.trim()`. -/
def jsTrim (s : Str) : Str :=
  ((s.dropWhile isWS).reverse.dropWhile isWS).reverse

/-- Embeds `a.startsWith(b)` as `isPrefixB b a`. -/
def isPrefixB : Str → Str → Bool
  | [], _ => true
  | _ :: _, [] => false
  | a :: as, b :: bs => a == b && isPrefixB as bs

/-- Embeds `s.includes(pat)`. -/
def includesB (s pat : Str) : Bool :=
  match s with
  | [] => isPrefixB pat []
  | _ :: rest => isPrefixB pat s || includesB rest pat

/-- Association-list lookup; embeds `Map.prototype.get` (with `none` for a
missing key). -/
def mapGet {α : Type} : List (Str × α) → Str → Option α
  | [], _ => none
  | (k', v) :: rest, k => if k' = k then some v else mapGet rest k

/-- Association-list update; embeds `Map.prototype.set` (replace if present,
append otherwise). -/
def mapSet {α : Type} : List (Str × α) → Str → α → List (Str × α)
  | [], k, v => [(k, v)]
  | (k', v') :: rest, k, v =>
    if k' = k then (k, v) :: rest else (k', v') :: mapSet rest k v

/-- Embeds `parseInt` on an all-digit string. -/
def natOfDigits (s : Str) : Nat :=
  s.foldl (fun acc c => acc * 10 + (c.toNat - 48)) 0

/-- Decimal digits of `n`, fuel-driven so the kernel can evaluate it; embeds
the JS template conversion `${n}` of a nonnegative integer. -/
def natDigitsAux : Nat → Nat → Str
  | 0, _ => []
  | fuel + 1, n =>
    if n < 10 then [Char.ofNat (48 + n)]
    else natDigitsAux fuel (n / 10) ++ [Char.ofNat (48 + n % 10)]

def natDigitsStr (n : Nat) : Str := natDigitsAux (n + 1) n

/-- Embeds `s.padStart(n, '0')`. -/
def padStartN (n : Nat) (s : Str) : Str := List.replicate (n - s.length) '0' ++ s

def padStart14 (s : Str) : Str := padStartN 14 s

/-- Embeds `String(n).padStart(2, '0')`. -/
def pad2 (n : Nat) : Str := padStartN 2 (natDigitsStr n)

/-- Embeds `g.startsWith('0') ? g.slice(1) : g`, the `gtin13` derivation. -/
def stripLeadingZero (g : Str) : Str := if g.head? = some '0' then g.drop 1 else g

/-- Embeds `s.slice(-n)` for nonnegative `n`. -/
def lastN (n : Nat) (s : Str) : Str := s.drop (s.length - n)

def indexOfAux (pat : Str) : Str → Nat → Option Nat
  | [], i => if pat.isEmpty then some i else none
  | c :: rest, i =>
    if isPrefixB pat (c :: rest) then some i else indexOfAux pat rest (i + 1)

/-- Embeds `s.indexOf(pat, start)` (with `none` for -1). -/
def indexOfFrom (pat s : Str) (start : Nat) : Option Nat :=
  (indexOfAux pat (s.drop start) 0).map (· + start)

/-- Embeds `c.toUpperCase()` on the ASCII range. -/
def jsToUpper (c : Char) : Char :=
  if 'a' ≤ c ∧ c ≤ 'z' then Char.ofNat (c.toNat - 32) else c

def toUpperStr (s : Str) : Str := s.map jsToUpper

def wordsBAux : Str → Str → List Str
  | [], cur => if cur.isEmpty then [] else [cur.reverse]
  | c :: rest, cur =>
    if isWS c then
      (if cur.isEmpty then wordsBAux rest [] else cur.reverse :: wordsBAux rest [])
    else wordsBAux rest (c :: cur)

/-- Embeds `q.split(/\s+/).filter(Boolean)`. -/
def wordsB (s : Str) : List Str := wordsBAux s []

-- ===================================================================
-- Expiry parsing (part_002 `parseExpiryDate`)
-- ===================================================================

def isLeapYear (y : Nat) : Bool := (y % 4 == 0 && y % 100 != 0) || y % 400 == 0

/-- Number of days of the 1-based month `m` of year `y`; embeds the JS
expression `new Date(year, mm, 0).getDate()` for `1 ≤ mm ≤ 12` (proleptic
Gregorian calendar, as implemented by `Date`). -/
def daysInMonth (y m : Nat) : Nat :=
  if m = 2 then (if isLeapYear y then 29 else 28)
  else if m = 4 ∨ m = 6 ∨ m = 9 ∨ m = 11 then 30
  else 31

structure ExpiryParts where
  iso : Str
  ddmmyy : Str
  display : Str
deriving DecidableEq

/-- Embeds `parseExpiryDate(yymmdd)` of part_002: two-digit year mapped by
`2000 + yy`, day `00` resolved to the last day of the month. -/
def parseExpiryDate (yymmdd : Str) : ExpiryParts :=
  let yy := natOfDigits (yymmdd.take 2)
  let mm := natOfDigits ((yymmdd.drop 2).take 2)
  let dd0 := natOfDigits ((yymmdd.drop 4).take 2)
  let year := 2000 + yy
  let dd := if dd0 = 0 then daysInMonth year mm else dd0
  { iso := natDigitsStr year ++ '-' :: pad2 mm ++ '-' :: pad2 dd
    ddmmyy := pad2 dd ++ pad2 mm ++ pad2 yy
    display := pad2 dd ++ '/' :: pad2 mm ++ '/' :: natDigitsStr year }

-- ===================================================================
-- GS1 decoding (part_002 `parseGS1`)
-- ===================================================================

structure GS1Result where
  raw : Str
  gtin14 : Str
  gtin13 : Str
  expiryISO : Str
  expiryDDMMYY : Str
  expiryDisplay : Str
  batch : Str
  serial : Str
  qty : Nat
  isGS1 : Bool
deriving DecidableEq

def emptyGS1 (raw : Str) : GS1Result :=
  { raw := raw, gtin14 := [], gtin13 := [], expiryISO := [], expiryDDMMYY := []
    expiryDisplay := [], batch := [], serial := [], qty := 1, isGS1 := false }

/-- First match of the regex `tag(\d{n})`: scan for an occurrence of the
literal `tag` followed by `n` digits, return the digits. -/
def findTagFixed (tag : Str) (n : Nat) : Str → Option Str
  | [] => none
  | c :: rest =>
    if isPrefixB tag (c :: rest) then
      let after := (c :: rest).drop tag.length
      if n ≤ after.length ∧ (after.take n).all Char.isDigit = true then
        some (after.take n)
      else findTagFixed tag n rest
    else findTagFixed tag n rest

/-- First match of the regex `tag([keep]+)` with a greedy variable-length
capture. -/
def findTagVar (tag : Str) (keep : Char → Bool) : Str → Option Str
  | [] => none
  | c :: rest =>
    if isPrefixB tag (c :: rest) then
      let cap := ((c :: rest).drop tag.length).takeWhile keep
      if cap.isEmpty then findTagVar tag keep rest else some cap
    else findTagVar tag keep rest

/-- Parenthesized-AI branch of `parseGS1`. -/
def parseParenthesized (raw code : Str) : GS1Result :=
  let r0 := { emptyGS1 raw with isGS1 := true }
  let r1 := match findTagFixed (s2l "(01)") 14 code with
    | some g => { r0 with gtin14 := g, gtin13 := stripLeadingZero g }
    | none => r0
  let r2 := match findTagFixed (s2l "(17)") 6 code with
    | some e =>
      let p := parseExpiryDate e
      { r1 with expiryISO := p.iso, expiryDDMMYY := p.ddmmyy, expiryDisplay := p.display }
    | none => r1
  let r3 := match findTagVar (s2l "(10)") (fun c => !(c == '(')) code with
    | some b => { r2 with batch := jsTrim b }
    | none => r2
  let r4 := match findTagVar (s2l "(21)") (fun c => !(c == '(')) code with
    | some sr => { r3 with serial := jsTrim sr }
    | none => r3
  match findTagVar (s2l "(30)") Char.isDigit code with
  | some qd => { r4 with qty := if natOfDigits qd = 0 then 1 else natOfDigits qd }
  | none => r4

/-- Concatenated-AI branch of `parseGS1` (input starts with `01` + 14 digits).
The expiry field is excised from `remaining` before the batch scan, exactly as
in the source. -/
def parseRawGS1 (raw code : Str) : GS1Result :=
  let gtin14 := (code.drop 2).take 14
  let remaining0 := code.drop 16
  let expStep :=
    match indexOfFrom (s2l "17") remaining0 0 with
    | some i =>
      if i + 8 ≤ remaining0.length then
        let yymmdd := (remaining0.drop (i + 2)).take 6
        if yymmdd.length = 6 ∧ yymmdd.all Char.isDigit = true then
          (some (parseExpiryDate yymmdd), remaining0.take i ++ remaining0.drop (i + 8))
        else (none, remaining0)
      else (none, remaining0)
    | none => (none, remaining0)
  let remaining := expStep.2
  let batch :=
    match indexOfFrom (s2l "10") remaining 0 with
    | some j =>
      let batchStart := j + 2
      let be0 := remaining.length
      let be1 := match indexOfFrom (s2l "21") remaining batchStart with
        | some k => if k < be0 then k else be0
        | none => be0
      let be2 := match indexOfFrom (s2l "30") remaining batchStart with
        | some k => if k < be1 then k else be1
        | none => be1
      let be3 := match indexOfFrom (s2l "37") remaining batchStart with
        | some k => if k < be2 then k else be2
        | none => be2
      jsTrim ((remaining.drop batchStart).take (be3 - batchStart))
    | none => []
  let base := { emptyGS1 raw with
    isGS1 := true, gtin14 := gtin14, gtin13 := stripLeadingZero gtin14 }
  let withExp := match expStep.1 with
    | some p =>
      { base with expiryISO := p.iso, expiryDDMMYY := p.ddmmyy, expiryDisplay := p.display }
    | none => base
  { withExp with batch := batch }

/-- Embeds `parseGS1(code)` of part_002: trim and strip CR/LF, then dispatch on
parenthesized AI syntax, concatenated AI syntax (`^01\d{14}`), and plain
numeric codes. -/
def parseGS1 (raw : Str) : GS1Result :=
  if raw.isEmpty then emptyGS1 raw
  else
    let code := (jsTrim raw).filter (fun c => !(c == '\r' || c == '\n'))
    if '(' ∈ code then parseParenthesized raw code
    else if 16 ≤ code.length ∧ code.take 2 = s2l "01" ∧
        ((code.drop 2).take 14).all Char.isDigit = true then
      parseRawGS1 raw code
    else
      let digits := code.filter Char.isDigit
      if 8 ≤ digits.length ∧ digits.length ≤ 14 then
        { emptyGS1 raw with gtin14 := padStart14 digits
                            gtin13 := stripLeadingZero (padStart14 digits) }
      else if 5 ≤ digits.length then
        { emptyGS1 raw with gtin14 := padStart14 digits, gtin13 := digits }
      else emptyGS1 raw

-- ===================================================================
-- Master index (part_002 `buildMasterIndex`)
-- ===================================================================

/-- A raw catalog row `{barcode, name, rms}` as consumed by
`buildMasterIndex`; missing fields are the empty string (JS falsy). -/
structure MItem where
  barcode : Str
  name : Str
  rms : Str
deriving DecidableEq

/-- Entry `{barcode, name}` pushed into a `last8` bucket. -/
structure L8E where
  barcode : Str
  name : Str
deriving DecidableEq

structure Idx where
  exact : List (Str × Str)
  last8 : List (Str × List L8E)
  rms : List (Str × Str)
  all : List MItem
deriving DecidableEq

/-- Embeds `String(item.barcode || '').replace(/\D/g, '').trim()`. -/
def normBarcode (it : MItem) : Str := jsTrim (it.barcode.filter Char.isDigit)

/-- Embeds `String(item.rms || '').trim()`. -/
def normRms (it : MItem) : Str := jsTrim it.rms

/-- Embeds the collision-tolerant push
`if (!m.has(k)) m.set(k, []); m.get(k).push(e)`. -/
def bucketAdd (m : List (Str × List L8E)) (k : Str) (e : L8E) : List (Str × List L8E) :=
  match mapGet m k with
  | none => mapSet m k [e]
  | some l => mapSet m k (l ++ [e])

/-- The four `idx.exact.set` calls of the barcode block, in source order:
the normalized barcode, its 14-digit zero-padded form, that form with one
leading zero stripped (when it starts with `'0'`), and the fully
zero-stripped form when it keeps at least 5 digits. -/
def registerBarcodeExact (ex : List (Str × Str)) (barcode name : Str) : List (Str × Str) :=
  let e1 := mapSet ex barcode name
  let gtin14 := padStart14 barcode
  let e2 := mapSet e1 gtin14 name
  let e3 := if gtin14.head? = some '0' then mapSet e2 (gtin14.drop 1) name else e2
  let noZeros := barcode.dropWhile (fun ch => ch == '0')
  if 5 ≤ noZeros.length then mapSet e3 noZeros name else e3

/-- `exact` after one item: the barcode block's sets, then the RMS alias. -/
def stepExact (ex : List (Str × Str)) (barcode name rms : Str) : List (Str × Str) :=
  let ex1 := if barcode = [] then ex else registerBarcodeExact ex barcode name
  if rms = [] then ex1 else mapSet ex1 rms name

/-- One iteration of the `for (const item of masterData)` loop of
`buildMasterIndex`, including both `continue` guards; `normBarcode item`,
`item.name` and `normRms item` are the loop's `barcode`, `name`, `rms`. -/
def buildStep (idx : Idx) (item : MItem) : Idx :=
  if normBarcode item = [] ∧ normRms item = [] then idx
  else if item.name = [] then idx
  else
    { exact := stepExact idx.exact (normBarcode item) item.name (normRms item)
      last8 :=
        if normBarcode item ≠ [] ∧ 8 ≤ (normBarcode item).length then
          bucketAdd idx.last8 (lastN 8 (normBarcode item)) ⟨normBarcode item, item.name⟩
        else idx.last8
      rms :=
        if normRms item = [] then idx.rms
        else mapSet idx.rms (normRms item) item.name
      all := idx.all ++ [⟨normBarcode item, item.name, normRms item⟩] }

def emptyIdx : Idx := ⟨[], [], [], []⟩

/-- Embeds `buildMasterIndex(masterData)` of part_002. -/
def buildMasterIndex (masterData : List MItem) : Idx :=
  masterData.foldl buildStep emptyIdx

-- ===================================================================
-- Product matching (part_002 `matchProduct`)
-- ===================================================================

inductive MType where
  | EXACT
  | RMS
  | LAST8
  | NONE
deriving DecidableEq

structure MRes where
  name : Str
  type : MType
deriving DecidableEq

def mresNone : MRes := { name := [], type := MType.NONE }

/-- Candidate list `[gtin14, gtin13, rawCode, rawCode?.replace(/\D/g,'')]
.filter(Boolean)`. -/
def tryExactList (gtin14 gtin13 rawCode : Str) : List Str :=
  ([gtin14, gtin13, rawCode, rawCode.filter Char.isDigit]).filter (fun c => !c.isEmpty)

/-- The `for (const code of tryExact)` loop: for each candidate, look it up,
then look up its zero-stripped form when that keeps at least 5 digits. -/
def exactLoop (ex : List (Str × Str)) : List Str → Option Str
  | [] => none
  | c :: rest =>
    match mapGet ex c with
    | some nm => some nm
    | none =>
      let noZeros := c.dropWhile (fun ch => ch == '0')
      if 5 ≤ noZeros.length then
        match mapGet ex noZeros with
        | some nm => some nm
        | none => exactLoop ex rest
      else exactLoop ex rest

/-- RMS tier: `if (rawCode && idx.rms.has(rawCode))`. -/
def rmsTier (idx : Idx) (rawCode : Str) : Option Str :=
  if rawCode.isEmpty then none else mapGet idx.rms rawCode

/-- Last-8-digits tier, reached when the earlier tiers miss: succeeds only on
a singleton bucket. -/
def last8Tier (idx : Idx) (gtin14 : Str) : MRes :=
  if gtin14.isEmpty then mresNone
  else
    match mapGet idx.last8 (lastN 8 gtin14) with
    | some ms =>
      if ms.length = 1 then { name := (ms.headD ⟨[], []⟩).name, type := MType.LAST8 }
      else mresNone
    | none => mresNone

/-- Embeds `matchProduct(gtin14, gtin13, rawCode)` of part_002, with the
index passed explicitly instead of read from `State.masterIndex`. -/
def matchProduct (idx : Idx) (gtin14 gtin13 rawCode : Str) : MRes :=
  match exactLoop idx.exact (tryExactList gtin14 gtin13 rawCode) with
  | some nm => { name := nm, type := MType.EXACT }
  | none =>
    match rmsTier idx rawCode with
    | some nm => { name := nm, type := MType.RMS }
    | none => last8Tier idx gtin14

-- ===================================================================
-- PharmacyMatcher (part_000)
-- ===================================================================

/-- A product row as indexed by `PharmacyMatcher` (only `barcode` and `name`
are consumed; missing fields are the empty string). -/
structure MProduct where
  barcode : Str
  name : Str
deriving DecidableEq

structure Matcher where
  products : List MProduct
  barcodeMap : List (Str × MProduct)
  ready : Bool
deriving DecidableEq

/-- A freshly constructed, not yet initialised matcher. -/
def matcherNew : Matcher := { products := [], barcodeMap := [], ready := false }

/-- Embeds a successful `init()`: index the catalog rows with a truthy
barcode, then set the ready flag. -/
def matcherInit (ps : List MProduct) : Matcher :=
  { products := ps
    barcodeMap :=
      ps.foldl (fun m p => if p.barcode.isEmpty then m else mapSet m (jsTrim p.barcode) p) []
    ready := true }

/-- The `_checkReady()` error message. -/
def notReadyMsg : Str :=
  s2l "PharmacyMatcher not initialised — call await matcher.init() first."

def matchExactCore (m : Matcher) (code : Str) : Option MProduct :=
  mapGet m.barcodeMap (jsTrim code)

/-- Embeds `matchExact(code)`; `_checkReady()` throwing is the `error` case. -/
def matchExact (m : Matcher) (code : Str) : Except Str (Option MProduct) :=
  if m.ready then Except.ok (matchExactCore m code) else Except.error notReadyMsg

/-- Series predicate `bc.startsWith(query) || query.startsWith(bc)`. -/
def seriesPred (query : Str) (p : MProduct) : Bool :=
  let bc := jsTrim p.barcode
  isPrefixB query bc || isPrefixB bc query

/-- The `for (const p of this.products)` loop of `matchSeries`, with the
early break once `limit` results are collected. -/
def matchSeriesGo (query : Str) (limit : Nat) : List MProduct → List MProduct → List MProduct
  | [], acc => acc
  | p :: rest, acc =>
    if seriesPred query p then
      let acc2 := acc ++ [p]
      if limit ≤ acc2.length then acc2 else matchSeriesGo query limit rest acc2
    else matchSeriesGo query limit rest acc

def matchSeriesCore (m : Matcher) (code : Str) (limit : Nat) : List MProduct :=
  matchSeriesGo (jsTrim code) limit m.products []

/-- Embeds `matchSeries(code, limit)`. -/
def matchSeries (m : Matcher) (code : Str) (limit : Nat) : Except Str (List MProduct) :=
  if m.ready then Except.ok (matchSeriesCore m code limit) else Except.error notReadyMsg

/-- Per-product scoring: 3 exact, 2 substring, 1 all words present, 0 excluded. -/
def scoreName (q : Str) (words : List Str) (nm : Str) : Nat :=
  if nm = q then 3
  else if includesB nm q then 2
  else if words.all (fun w => includesB nm w) then 1
  else 0

/-- Stable insertion for the descending-score order. -/
def insertByScoreDesc (x : MProduct × Nat) : List (MProduct × Nat) → List (MProduct × Nat)
  | [] => [x]
  | y :: ys => if y.2 < x.2 then x :: y :: ys else y :: insertByScoreDesc x ys

/-- Embeds the stable `results.sort((a, b) => b._score - a._score)`. -/
def sortByScoreDesc (l : List (MProduct × Nat)) : List (MProduct × Nat) :=
  l.foldl (fun acc x => insertByScoreDesc x acc) []

def matchByNameCore (m : Matcher) (query : Str) (limit : Nat) : List (MProduct × Nat) :=
  let q := toUpperStr (jsTrim query)
  let words := wordsB q
  let results := m.products.filterMap (fun p =>
    let nm := toUpperStr p.name
    let score := scoreName q words nm
    if 0 < score then some (p, score) else none)
  (sortByScoreDesc results).take limit

/-- Embeds `matchByName(query, limit)`; a result pair is `{...p, _score}`. -/
def matchByName (m : Matcher) (query : Str) (limit : Nat) : Except Str (List (MProduct × Nat)) :=
  if m.ready then Except.ok (matchByNameCore m query limit) else Except.error notReadyMsg

inductive SMType where
  | exact_barcode
  | series_barcode
  | name
  | no_match
deriving DecidableEq

/-- A `smartMatch` result item: a plain product (barcode tiers) or a scored
product (name tier). -/
abbrev SMItem := MProduct ⊕ (MProduct × Nat)

structure SMRes where
  type : SMType
  results : List SMItem
deriving DecidableEq

/-- Embeds the regex test `/^\d+$/.test(q)`. -/
def isBarcodeShaped (q : Str) : Bool := !q.isEmpty && q.all Char.isDigit

/-- The shared name-search fall-through of `smartMatch`. -/
def nameFallback (m : Matcher) (q : Str) (limit : Nat) : SMRes :=
  let byName := matchByNameCore m q limit
  if byName.isEmpty then { type := SMType.no_match, results := [] }
  else { type := SMType.name, results := byName.map Sum.inr }

/-- The body of `smartMatch` after `_checkReady()`. -/
def smartMatchCore (m : Matcher) (query : Str) (limit : Nat) : SMRes :=
  let q := jsTrim query
  if isBarcodeShaped q then
    match matchExactCore m q with
    | some exactP => { type := SMType.exact_barcode, results := [Sum.inl exactP] }
    | none =>
      let series := matchSeriesCore m q limit
      if series.isEmpty then nameFallback m q limit
      else { type := SMType.series_barcode, results := series.map Sum.inl }
  else nameFallback m q limit

/-- Embeds `smartMatch(query, limit)`. -/
def smartMatch (m : Matcher) (query : Str) (limit : Nat) : Except Str SMRes :=
  if m.ready then Except.ok (smartMatchCore m query limit) else Except.error notReadyMsg

deriving instance DecidableEq for Except

/-- `Except` success test (the operation did not throw). -/
def exOk {α : Type} (e : Except Str α) : Bool :=
  match e with
  | Except.ok _ => true
  | Except.error _ => false

-- ===================================================================
-- Association-list and index lemmas
-- ===================================================================

theorem mapGet_mapSet_self {α : Type} (m : List (Str × α)) (k : Str) (v : α) :
    mapGet (mapSet m k v) k = some v := by
  induction m with
  | nil => simp [mapSet, mapGet]
  | cons h t ih =>
    obtain ⟨k', v'⟩ := h
    by_cases hk : k' = k
    · subst hk; simp [mapSet, mapGet]
    · simp [mapSet, mapGet, hk, ih]

theorem mapGet_mapSet_ne {α : Type} (m : List (Str × α)) (k k' : Str) (v : α)
    (h : k ≠ k') : mapGet (mapSet m k v) k' = mapGet m k' := by
  induction m with
  | nil => simp [mapSet, mapGet, h]
  | cons hd t ih =>
    obtain ⟨a, b⟩ := hd
    by_cases ha : a = k
    · subst ha; simp [mapSet, mapGet, h]
    · simp [mapSet, mapGet, ha, ih]

theorem mapGet_isSome_mapSet {α : Type} (m : List (Str × α)) (k k' : Str) (v : α)
    (h : (mapGet m k').isSome = true) : (mapGet (mapSet m k v) k').isSome = true := by
  by_cases hk : k = k'
  · subst hk; simp [mapGet_mapSet_self]
  · rw [mapGet_mapSet_ne m k k' v hk]; exact h

theorem mapGet_isSome_mapSet_self {α : Type} (m : List (Str × α)) (k : Str) (v : α) :
    (mapGet (mapSet m k v) k).isSome = true := by
  simp [mapGet_mapSet_self]

/-- The bucket a key maps to (empty when absent), as `matches` in the source. -/
def bGet (m : List (Str × List L8E)) (k : Str) : List L8E := (mapGet m k).getD []

theorem bGet_bucketAdd_self (m : List (Str × List L8E)) (k : Str) (e : L8E) :
    e ∈ bGet (bucketAdd m k e) k := by
  unfold bucketAdd bGet
  cases h : mapGet m k <;> simp [mapGet_mapSet_self]

theorem bGet_bucketAdd_mono (m : List (Str × List L8E)) (k k' : Str) (e e' : L8E)
    (h : e ∈ bGet m k) : e ∈ bGet (bucketAdd m k' e') k := by
  unfold bucketAdd bGet at *
  by_cases hk : k' = k
  · subst hk
    cases hm : mapGet m k' with
    | none => rw [hm] at h; simp at h
    | some l =>
      rw [hm] at h
      simp at h
      simp [mapGet_mapSet_self]
      exact Or.inl h
  · cases hm : mapGet m k' <;> rw [mapGet_mapSet_ne m k' k _ hk] <;> exact h

theorem registerBarcodeExact_mono (ex : List (Str × Str)) (b n k : Str)
    (h : (mapGet ex k).isSome = true) :
    (mapGet (registerBarcodeExact ex b n) k).isSome = true := by
  unfold registerBarcodeExact
  by_cases h3 : (padStart14 b).head? = some '0' <;>
    by_cases h4 : 5 ≤ (b.dropWhile (fun ch => ch == '0')).length <;>
      simp only [h3, h4, if_pos, if_neg, if_true, if_false, ite_true, ite_false] <;>
        repeat first
          | exact h
          | apply mapGet_isSome_mapSet

theorem registerBarcodeExact_has_barcode (ex : List (Str × Str)) (b n : Str) :
    (mapGet (registerBarcodeExact ex b n) b).isSome = true := by
  unfold registerBarcodeExact
  by_cases h3 : (padStart14 b).head? = some '0' <;>
    by_cases h4 : 5 ≤ (b.dropWhile (fun ch => ch == '0')).length <;>
      simp only [h3, h4, ite_true, ite_false] <;>
        repeat first
          | exact mapGet_isSome_mapSet_self _ _ _
          | apply mapGet_isSome_mapSet

theorem registerBarcodeExact_has_pad (ex : List (Str × Str)) (b n : Str) :
    (mapGet (registerBarcodeExact ex b n) (padStart14 b)).isSome = true := by
  unfold registerBarcodeExact
  by_cases h3 : (padStart14 b).head? = some '0' <;>
    by_cases h4 : 5 ≤ (b.dropWhile (fun ch => ch == '0')).length <;>
      simp only [h3, h4, ite_true, ite_false] <;>
        repeat first
          | exact mapGet_isSome_mapSet_self _ _ _
          | apply mapGet_isSome_mapSet

theorem registerBarcodeExact_has_tail (ex : List (Str × Str)) (b n : Str)
    (h0 : (padStart14 b).head? = some '0') :
    (mapGet (registerBarcodeExact ex b n) ((padStart14 b).drop 1)).isSome = true := by
  unfold registerBarcodeExact
  by_cases h4 : 5 ≤ (b.dropWhile (fun ch => ch == '0')).length <;>
    simp only [h0, h4, ite_true, ite_false] <;>
      repeat first
        | exact mapGet_isSome_mapSet_self _ _ _
        | apply mapGet_isSome_mapSet

theorem stepExact_mono (ex : List (Str × Str)) (b n r k : Str)
    (h : (mapGet ex k).isSome = true) :
    (mapGet (stepExact ex b n r) k).isSome = true := by
  unfold stepExact
  by_cases hb : b = [] <;> by_cases hr : r = [] <;>
    simp only [hb, hr, ite_true, ite_false] <;>
      repeat first
        | exact h
        | exact registerBarcodeExact_mono ex b n k h
        | apply mapGet_isSome_mapSet
        | apply registerBarcodeExact_mono

theorem stepExact_has (ex : List (Str × Str)) (b n r : Str) (hb : b ≠ []) :
    (mapGet (stepExact ex b n r) b).isSome = true ∧
    (mapGet (stepExact ex b n r) (padStart14 b)).isSome = true ∧
    ((padStart14 b).head? = some '0' →
      (mapGet (stepExact ex b n r) ((padStart14 b).drop 1)).isSome = true) := by
  unfold stepExact
  by_cases hr : r = [] <;> simp only [hb, hr, ite_true, ite_false, if_neg hb]
  · exact ⟨registerBarcodeExact_has_barcode ex b n,
      registerBarcodeExact_has_pad ex b n,
      fun h0 => registerBarcodeExact_has_tail ex b n h0⟩
  · exact ⟨mapGet_isSome_mapSet _ _ _ _ (registerBarcodeExact_has_barcode ex b n),
      mapGet_isSome_mapSet _ _ _ _ (registerBarcodeExact_has_pad ex b n),
      fun h0 => mapGet_isSome_mapSet _ _ _ _ (registerBarcodeExact_has_tail ex b n h0)⟩

theorem buildStep_exact_mono (idx : Idx) (it : MItem) (k : Str)
    (h : (mapGet idx.exact k).isSome = true) :
    (mapGet (buildStep idx it).exact k).isSome = true := by
  unfold buildStep
  split
  · exact h
  · split
    · exact h
    · exact stepExact_mono _ _ _ _ _ h

theorem buildStep_exact_has (idx : Idx) (it : MItem)
    (hb : normBarcode it ≠ []) (hn : it.name ≠ []) :
    (mapGet (buildStep idx it).exact (normBarcode it)).isSome = true ∧
    (mapGet (buildStep idx it).exact (padStart14 (normBarcode it))).isSome = true ∧
    ((padStart14 (normBarcode it)).head? = some '0' →
      (mapGet (buildStep idx it).exact ((padStart14 (normBarcode it)).drop 1)).isSome = true) := by
  unfold buildStep
  have h1 : ¬(normBarcode it = [] ∧ normRms it = []) := fun h => hb h.1
  simp only [if_neg h1, if_neg hn]
  exact stepExact_has _ _ _ _ hb

theorem buildStep_last8_mono (idx : Idx) (it : MItem) (k : Str) (e : L8E)
    (h : e ∈ bGet idx.last8 k) : e ∈ bGet (buildStep idx it).last8 k := by
  unfold buildStep
  split
  · exact h
  · split
    · exact h
    · simp only []
      split
      · exact bGet_bucketAdd_mono _ _ _ _ _ h
      · exact h

theorem buildStep_last8_has (idx : Idx) (it : MItem)
    (hb8 : 8 ≤ (normBarcode it).length) (hn : it.name ≠ []) :
    (⟨normBarcode it, it.name⟩ : L8E) ∈
      bGet (buildStep idx it).last8 (lastN 8 (normBarcode it)) := by
  have hb : normBarcode it ≠ [] := by
    intro h
    rw [h] at hb8
    simp at hb8
  unfold buildStep
  have h1 : ¬(normBarcode it = [] ∧ normRms it = []) := fun h => hb h.1
  simp only [if_neg h1, if_neg hn]
  have h2 : normBarcode it ≠ [] ∧ 8 ≤ (normBarcode it).length := ⟨hb, hb8⟩
  simp only [if_pos h2]
  exact bGet_bucketAdd_self _ _ _

theorem foldl_exact_mono (l : List MItem) (idx : Idx) (k : Str)
    (h : (mapGet idx.exact k).isSome = true) :
    (mapGet (l.foldl buildStep idx).exact k).isSome = true := by
  induction l generalizing idx with
  | nil => exact h
  | cons a t ih => exact ih (buildStep idx a) (buildStep_exact_mono idx a k h)

theorem foldl_exact_has (l : List MItem) (idx : Idx) (it : MItem)
    (hmem : it ∈ l) (hb : normBarcode it ≠ []) (hn : it.name ≠ []) :
    (mapGet (l.foldl buildStep idx).exact (normBarcode it)).isSome = true ∧
    (mapGet (l.foldl buildStep idx).exact (padStart14 (normBarcode it))).isSome = true ∧
    ((padStart14 (normBarcode it)).head? = some '0' →
      (mapGet (l.foldl buildStep idx).exact
        ((padStart14 (normBarcode it)).drop 1)).isSome = true) := by
  induction l generalizing idx with
  | nil => cases hmem
  | cons a t ih =>
    rcases List.mem_cons.mp hmem with h | h
    · subst h
      obtain ⟨h1, h2, h3⟩ := buildStep_exact_has idx it hb hn
      exact ⟨foldl_exact_mono t _ _ h1, foldl_exact_mono t _ _ h2,
        fun h0 => foldl_exact_mono t _ _ (h3 h0)⟩
    · exact ih (buildStep idx a) h

theorem foldl_last8_mono (l : List MItem) (idx : Idx) (k : Str) (e : L8E)
    (h : e ∈ bGet idx.last8 k) : e ∈ bGet (l.foldl buildStep idx).last8 k := by
  induction l generalizing idx with
  | nil => exact h
  | cons a t ih => exact ih (buildStep idx a) (buildStep_last8_mono idx a k e h)

theorem foldl_last8_has (l : List MItem) (idx : Idx) (it : MItem)
    (hmem : it ∈ l) (hb8 : 8 ≤ (normBarcode it).length) (hn : it.name ≠ []) :
    (⟨normBarcode it, it.name⟩ : L8E) ∈
      bGet (l.foldl buildStep idx).last8 (lastN 8 (normBarcode it)) := by
  induction l generalizing idx with
  | nil => cases hmem
  | cons a t ih =>
    rcases List.mem_cons.mp hmem with h | h
    · subst h
      exact foldl_last8_mono t _ _ _ (buildStep_last8_has idx it hb8 hn)
    · exact ih (buildStep idx a) h

theorem two_mem_two_le {α : Type} (l : List α) (a b : α)
    (ha : a ∈ l) (hb : b ∈ l) (hne : a ≠ b) : 2 ≤ l.length := by
  match l with
  | [] => cases ha
  | [x] =>
    simp at ha hb
    exact absurd (ha.trans hb.symm) hne
  | x :: y :: t => simp

theorem exactLoop_none (ex : List (Str × Str)) (cs : List Str)
    (h : ∀ c ∈ cs, mapGet ex c = none ∧
      mapGet ex (c.dropWhile (fun ch => ch == '0')) = none) :
    exactLoop ex cs = none := by
  induction cs with
  | nil => rfl
  | cons c rest ih =>
    obtain ⟨h1, h2⟩ := h c (by simp)
    have hr := ih (fun d hd => h d (by simp [hd]))
    simp [exactLoop, h1, h2, hr]

-- ===================================================================
-- Character-class lemmas for digit strings
-- ===================================================================

theorem dropWhile_all_false {p : Char → Bool} {s : Str} (h : ∀ c ∈ s, p c = false) :
    s.dropWhile p = s := by
  cases s with
  | nil => rfl
  | cons a t => simp [List.dropWhile_cons, h a (by simp)]

theorem ws_not_digit (c : Char) (h : isWS c = true) : c.isDigit = false := by
  simp only [isWS, Bool.or_eq_true, beq_iff_eq] at h
  rcases h with ((((h | h) | h) | h) | h) | h <;> subst h <;> rfl

theorem digit_not_ws (c : Char) (h : c.isDigit = true) : isWS c = false := by
  cases hw : isWS c
  · rfl
  · rw [ws_not_digit c hw] at h
    cases h

theorem jsTrim_eq_self {s : Str} (h : ∀ c ∈ s, isWS c = false) : jsTrim s = s := by
  unfold jsTrim
  rw [dropWhile_all_false h,
    dropWhile_all_false (fun c hc => h c (List.mem_reverse.mp hc)),
    List.reverse_reverse]

theorem digit_not_crlf (c : Char) (h : c.isDigit = true) :
    (!(c == '\r' || c == '\n')) = true := by
  by_cases h1 : c = '\r'
  · subst h1; cases h
  · by_cases h2 : c = '\n'
    · subst h2; cases h
    · simp [h1, h2]

-- ===================================================================
-- Claim theorems
-- ===================================================================

/-- Claim C1: for every numeric string of 8 to 14 digits, the decoder's
`gtin14` is the input left-padded with zeros to exactly 14 characters, and
`gtin13` strips exactly one leading zero from `gtin14` when it starts with
`'0'`, otherwise equals `gtin14`. -/
theorem c1_plain_numeric_decode (s : Str)
    (hd : ∀ c ∈ s, c.isDigit = true) (h8 : 8 ≤ s.length) (h14 : s.length ≤ 14) :
    (parseGS1 s).gtin14 = List.replicate (14 - s.length) '0' ++ s ∧
    (parseGS1 s).gtin14.length = 14 ∧
    (parseGS1 s).gtin13 =
      (if (parseGS1 s).gtin14.head? = some '0' then (parseGS1 s).gtin14.drop 1
       else (parseGS1 s).gtin14) := by
  have hne : s ≠ [] := by
    intro h
    rw [h] at h8
    simp at h8
  have hE : s.isEmpty = false := by
    cases s
    · exact absurd rfl hne
    · rfl
  have htr : jsTrim s = s := jsTrim_eq_self (fun c hc => digit_not_ws c (hd c hc))
  have hcr : s.filter (fun c => !(c == '\r' || c == '\n')) = s :=
    List.filter_eq_self.mpr (fun c hc => digit_not_crlf c (hd c hc))
  have hnp : '(' ∉ s := by
    intro hmem
    have := hd '(' hmem
    exact absurd this (by decide)
  have hraw : ¬(16 ≤ s.length ∧ s.take 2 = s2l "01" ∧
      ((s.drop 2).take 14).all Char.isDigit = true) :=
    fun h => absurd h.1 (by omega)
  have hdig : s.filter Char.isDigit = s := List.filter_eq_self.mpr hd
  have hg : parseGS1 s = { emptyGS1 s with gtin14 := padStart14 s
                                           gtin13 := stripLeadingZero (padStart14 s) } := by
    simp only [parseGS1]
    rw [hE]
    simp only [Bool.false_eq_true, if_false]
    rw [htr, hcr]
    rw [if_neg hnp, if_neg hraw, hdig, if_pos ⟨h8, h14⟩]
  refine ⟨?_, ?_, ?_⟩
  · rw [hg]
    simp [padStart14, padStartN]
  · rw [hg]
    simp [padStart14, padStartN]
    omega
  · rw [hg]
    simp [stripLeadingZero]

theorem c1_witness :
    (parseGS1 (s2l "12345678")).gtin14 =
      List.replicate (14 - (s2l "12345678").length) '0' ++ s2l "12345678" ∧
    (parseGS1 (s2l "12345678")).gtin14.length = 14 ∧
    (parseGS1 (s2l "12345678")).gtin13 =
      (if (parseGS1 (s2l "12345678")).gtin14.head? = some '0' then
        (parseGS1 (s2l "12345678")).gtin14.drop 1
       else (parseGS1 (s2l "12345678")).gtin14) :=
  c1_plain_numeric_decode (s2l "12345678") (by decide) (by decide) (by decide)

/-- Claim C5: parsing the expiry field "250131" yields the ISO date
"2025-01-31". -/
theorem c5_expiry_concrete : (parseExpiryDate (s2l "250131")).iso = s2l "2025-01-31" := by
  decide

/-- Claim C6: a day component of "00" resolves to the last day of the month by
calendar arithmetic (`daysInMonth`, the embedding of
`new Date(year, mm, 0).getDate()`); in particular "250200" resolves to
2025-02-28. -/
theorem c6_day_zero_last_day (s : Str)
    (h6 : s.length = 6) (hd : ∀ c ∈ s, c.isDigit = true)
    (h00 : s.drop 4 = ['0', '0'])
    (hm1 : 1 ≤ natOfDigits ((s.drop 2).take 2))
    (hm2 : natOfDigits ((s.drop 2).take 2) ≤ 12) :
    (parseExpiryDate s).iso =
      natDigitsStr (2000 + natOfDigits (s.take 2)) ++
        '-' :: pad2 (natOfDigits ((s.drop 2).take 2)) ++
        '-' :: pad2 (daysInMonth (2000 + natOfDigits (s.take 2))
          (natOfDigits ((s.drop 2).take 2))) ∧
    (parseExpiryDate (s2l "250200")).iso = s2l "2025-02-28" := by
  constructor
  · have hdd : (s.drop 4).take 2 = ['0', '0'] := by rw [h00]; decide
    have h0 : natOfDigits ((s.drop 4).take 2) = 0 := by rw [hdd]; decide
    simp [parseExpiryDate, h0]
  · decide

theorem c6_witness :
    ((parseExpiryDate (s2l "250200")).iso =
      natDigitsStr (2000 + natOfDigits ((s2l "250200").take 2)) ++
        '-' :: pad2 (natOfDigits (((s2l "250200").drop 2).take 2)) ++
        '-' :: pad2 (daysInMonth (2000 + natOfDigits ((s2l "250200").take 2))
          (natOfDigits (((s2l "250200").drop 2).take 2))) ∧
    (parseExpiryDate (s2l "250200")).iso = s2l "2025-02-28") :=
  c6_day_zero_last_day (s2l "250200") (by decide) (by decide) (by decide)
    (by decide) (by decide)

def panadolBaby : MProduct := { barcode := [], name := s2l "PANADOL BABY" }
def panadolExtra : MProduct := { barcode := [], name := s2l "PANADOL EXTRA" }
def panadolCatalog : List MProduct := [panadolBaby, panadolExtra]

/-- Claim C4 counterexample: on the catalog ["PANADOL BABY", "PANADOL EXTRA"],
`matchByName("panadol")` does NOT return the two products with score 1: each
name contains the full query as a substring, so the scoring rule assigns 2. -/
theorem c4_counterexample :
    matchByName (matcherInit panadolCatalog) (s2l "panadol") 10 ≠
      Except.ok [(panadolBaby, 1), (panadolExtra, 1)] := by
  decide

/-- Claim C4 (amended): `matchByName("panadol")` over ["PANADOL BABY",
"PANADOL EXTRA"] returns both products, in original catalog order, each with
score 2 — the full-query-substring tier of the scoring rule, which both names
hit before the all-tokens tier could assign 1. -/
theorem c4_name_scores :
    matchByName (matcherInit panadolCatalog) (s2l "panadol") 10 =
      Except.ok [(panadolBaby, 2), (panadolExtra, 2)] := by
  decide

/-- Claim C8: index construction is a deterministic function of the catalog
contents — identical catalogs give identical match outcomes for every query. -/
theorem c8_deterministic_rebuild (c1 c2 : List MItem) (h : c1 = c2)
    (gtin14 gtin13 rawCode : Str) :
    matchProduct (buildMasterIndex c1) gtin14 gtin13 rawCode =
      matchProduct (buildMasterIndex c2) gtin14 gtin13 rawCode := by
  rw [h]

def c8catalog : List MItem :=
  [{ barcode := s2l "05000309026607", name := s2l "Telfast", rms := s2l "220001" }]

theorem c8_witness :
    matchProduct (buildMasterIndex c8catalog) (s2l "05000309026607")
        (s2l "5000309026607") (s2l "05000309026607") =
      matchProduct (buildMasterIndex c8catalog) (s2l "05000309026607")
        (s2l "5000309026607") (s2l "05000309026607") :=
  c8_deterministic_rebuild c8catalog c8catalog rfl (s2l "05000309026607")
    (s2l "5000309026607") (s2l "05000309026607")

/-- Claim C9: before the index is built every match or search operation fails
fast with the initialisation error; after `init()` none of them errors. -/
theorem c9_ready_guard (m : Matcher) (ps : List MProduct) (code q : Str) (limit : Nat) :
    (m.ready = false →
      matchExact m code = Except.error notReadyMsg ∧
      matchSeries m code limit = Except.error notReadyMsg ∧
      matchByName m q limit = Except.error notReadyMsg ∧
      smartMatch m q limit = Except.error notReadyMsg) ∧
    (exOk (matchExact (matcherInit ps) code) = true ∧
     exOk (matchSeries (matcherInit ps) code limit) = true ∧
     exOk (matchByName (matcherInit ps) q limit) = true ∧
     exOk (smartMatch (matcherInit ps) q limit) = true) := by
  constructor
  · intro h
    simp [matchExact, matchSeries, matchByName, smartMatch, h]
  · simp [matchExact, matchSeries, matchByName, smartMatch, matcherInit, exOk]

theorem c9_witness :
    matchExact matcherNew (s2l "06291109120100") = Except.error notReadyMsg ∧
    exOk (smartMatch (matcherInit []) (s2l "06291109120100") 10) = true :=
  ⟨((c9_ready_guard matcherNew [] (s2l "06291109120100") (s2l "06291109120100") 10).1
      rfl).1,
   (c9_ready_guard matcherNew [] (s2l "06291109120100") (s2l "06291109120100")
      10).2.2.2.2⟩

/-- Claim C3: trimmed input is barcode-shaped iff it consists of digits only
(nonempty, per `/^\d+$/`); barcode-shaped input is routed exact-then-series
with the matching tag; otherwise, or when both barcode tiers fail, name search
runs, tagging nonempty results `name` and anything else `no_match` with an
empty results list. -/
theorem c3_smart_dispatch (m : Matcher) (q : Str) (limit : Nat)
    (hready : m.ready = true) (htrim : jsTrim q = q) :
    (isBarcodeShaped q = true ↔ q ≠ [] ∧ ∀ c ∈ q, c.isDigit = true) ∧
    (∀ e, isBarcodeShaped q = true → matchExactCore m q = some e →
      smartMatch m q limit =
        Except.ok { type := SMType.exact_barcode, results := [Sum.inl e] }) ∧
    (isBarcodeShaped q = true → matchExactCore m q = none →
      matchSeriesCore m q limit ≠ [] →
      smartMatch m q limit =
        Except.ok { type := SMType.series_barcode
                    results := (matchSeriesCore m q limit).map Sum.inl }) ∧
    ((isBarcodeShaped q = false ∨
        (matchExactCore m q = none ∧ matchSeriesCore m q limit = [])) →
      (matchByNameCore m q limit ≠ [] →
        smartMatch m q limit =
          Except.ok { type := SMType.name
                      results := (matchByNameCore m q limit).map Sum.inr }) ∧
      (matchByNameCore m q limit = [] →
        smartMatch m q limit = Except.ok { type := SMType.no_match, results := [] })) := by
  refine ⟨?_, ?_, ?_, ?_⟩
  · cases q with
    | nil => simp [isBarcodeShaped]
    | cons c t => simp [isBarcodeShaped, List.all_eq_true]
  · intro e hB hx
    simp [smartMatch, hready, smartMatchCore, htrim, hB, hx]
  · intro hB hx hs
    have hs' : (matchSeriesCore m q limit).isEmpty = false := by
      cases hsc : matchSeriesCore m q limit
      · exact absurd hsc hs
      · rfl
    simp [smartMatch, hready, smartMatchCore, htrim, hB, hx, hs']
  · intro hOr
    constructor
    · intro hbn
      have hbn' : (matchByNameCore m q limit).isEmpty = false := by
        cases hnc : matchByNameCore m q limit
        · exact absurd hnc hbn
        · rfl
      rcases hOr with hBf | ⟨hx, hs⟩
      · simp [smartMatch, hready, smartMatchCore, nameFallback, htrim, hBf, hbn']
      · have hse : (matchSeriesCore m q limit).isEmpty = true := by rw [hs]; rfl
        by_cases hB : isBarcodeShaped q <;>
          simp [smartMatch, hready, smartMatchCore, nameFallback, htrim, hB, hx, hse, hbn']
    · intro hbn
      have hbn' : (matchByNameCore m q limit).isEmpty = true := by rw [hbn]; rfl
      rcases hOr with hBf | ⟨hx, hs⟩
      · simp [smartMatch, hready, smartMatchCore, nameFallback, htrim, hBf, hbn']
      · have hse : (matchSeriesCore m q limit).isEmpty = true := by rw [hs]; rfl
        by_cases hB : isBarcodeShaped q <;>
          simp [smartMatch, hready, smartMatchCore, nameFallback, htrim, hB, hx, hse, hbn']

theorem c3_witness :
    smartMatch (matcherInit panadolCatalog) (s2l "xyz999") 10 =
      Except.ok { type := SMType.no_match, results := [] } :=
  ((c3_smart_dispatch (matcherInit panadolCatalog) (s2l "xyz999") 10 rfl
      (by decide)).2.2.2 (Or.inl (by decide))).2 (by decide)

theorem matchSeriesGo_all (q : Str) (limit : Nat) (ps : List MProduct)
    (acc : List MProduct)
    (h : acc.length + (ps.filter (seriesPred q)).length ≤ limit) :
    matchSeriesGo q limit ps acc = acc ++ ps.filter (seriesPred q) := by
  induction ps generalizing acc with
  | nil => simp [matchSeriesGo]
  | cons p rest ih =>
    by_cases hp : seriesPred q p = true
    · rw [List.filter_cons_of_pos hp] at h ⊢
      unfold matchSeriesGo
      rw [if_pos hp]
      by_cases hbrk : limit ≤ (acc ++ [p]).length
      · have hre : rest.filter (seriesPred q) = [] := by
          have hlen : (rest.filter (seriesPred q)).length = 0 := by
            simp at h hbrk
            omega
          exact List.length_eq_zero.mp hlen
        rw [if_pos hbrk, hre]
      · rw [if_neg hbrk]
        rw [ih (acc ++ [p]) (by simp at h ⊢; omega)]
        simp
    · have hp' : seriesPred q p = false := by
        cases hps : seriesPred q p
        · rfl
        · exact absurd hps hp
      rw [List.filter_cons_of_neg (by simp [hp'])] at h ⊢
      unfold matchSeriesGo
      rw [if_neg (by simp [hp'])]
      exact ih acc h

/-- Claim C10: a product with an empty (or missing) barcode satisfies the
series predicate for every query, so whenever the matching set fits under the
limit, `matchSeries` returns it in the results — regardless of the digits
scanned. -/
theorem c10_empty_barcode_series (ps : List MProduct) (p : MProduct) (q : Str)
    (limit : Nat) (hp : p ∈ ps) (hbc : jsTrim p.barcode = []) (hq : q ≠ [])
    (hcount : (ps.filter (seriesPred (jsTrim q))).length ≤ limit) :
    matchSeries (matcherInit ps) q limit =
      Except.ok (ps.filter (seriesPred (jsTrim q))) ∧
    p ∈ ps.filter (seriesPred (jsTrim q)) := by
  have hmatch : seriesPred (jsTrim q) p = true := by
    unfold seriesPred
    rw [hbc]
    simp [isPrefixB]
  constructor
  · have : matchSeriesGo (jsTrim q) limit ps [] = [] ++ ps.filter (seriesPred (jsTrim q)) :=
      matchSeriesGo_all (jsTrim q) limit ps [] (by simpa using hcount)
    simp at this
    simp [matchSeries, matcherInit, matchSeriesCore, this]
  · exact List.mem_filter.mpr ⟨hp, hmatch⟩

def c10noBarcode : MProduct := { barcode := [], name := s2l "NoBarcode" }
def c10other : MProduct := { barcode := s2l "123", name := s2l "Other" }
def c10catalog : List MProduct := [c10noBarcode, c10other]

theorem c10_witness :
    matchSeries (matcherInit c10catalog) (s2l "999") 10 =
      Except.ok (c10catalog.filter (seriesPred (jsTrim (s2l "999")))) ∧
    c10noBarcode ∈ c10catalog.filter (seriesPred (jsTrim (s2l "999"))) :=
  c10_empty_barcode_series c10catalog c10noBarcode (s2l "999") 10 (by decide)
    (by decide) (by decide) (by decide)

/-- Claim C2: when two distinct catalog codes share the same trailing 8
digits, a `gtin14` reaching the last-8 tier (all exact candidates and the RMS
key miss) with those trailing digits yields the NONE result, never an
arbitrary pick; and in general the last-8 tier succeeds only on a singleton
bucket. -/
theorem c2_last8_ambiguity
    (catalog : List MItem) (a b : MItem) (gtin14 gtin13 rawCode : Str)
    (idx2 : Idx) (g14x g13x rawx : Str)
    (ha : a ∈ catalog) (hb : b ∈ catalog)
    (hna : a.name ≠ []) (hnb : b.name ≠ [])
    (hlena : 8 ≤ (normBarcode a).length) (hlenb : 8 ≤ (normBarcode b).length)
    (hne : normBarcode a ≠ normBarcode b)
    (hsame : lastN 8 (normBarcode b) = lastN 8 (normBarcode a))
    (hhit : lastN 8 gtin14 = lastN 8 (normBarcode a))
    (hexact : ∀ c ∈ tryExactList gtin14 gtin13 rawCode,
      mapGet (buildMasterIndex catalog).exact c = none ∧
      mapGet (buildMasterIndex catalog).exact (c.dropWhile (fun ch => ch == '0')) = none)
    (hrms : mapGet (buildMasterIndex catalog).rms rawCode = none)
    (hL8 : (matchProduct idx2 g14x g13x rawx).type = MType.LAST8) :
    matchProduct (buildMasterIndex catalog) gtin14 gtin13 rawCode = mresNone ∧
    ∃ bucket, mapGet idx2.last8 (lastN 8 g14x) = some bucket ∧ bucket.length = 1 := by
  constructor
  · have hea : (⟨normBarcode a, a.name⟩ : L8E) ∈
        bGet (buildMasterIndex catalog).last8 (lastN 8 (normBarcode a)) :=
      foldl_last8_has catalog emptyIdx a ha hlena hna
    have heb : (⟨normBarcode b, b.name⟩ : L8E) ∈
        bGet (buildMasterIndex catalog).last8 (lastN 8 (normBarcode a)) := by
      rw [← hsame]
      exact foldl_last8_has catalog emptyIdx b hb hlenb hnb
    have heL : (⟨normBarcode a, a.name⟩ : L8E) ≠ ⟨normBarcode b, b.name⟩ := by
      intro h
      exact hne (congrArg L8E.barcode h)
    have h2 : 2 ≤ (bGet (buildMasterIndex catalog).last8 (lastN 8 (normBarcode a))).length :=
      two_mem_two_le _ _ _ hea heb heL
    obtain ⟨bucket, hbk, hbk2⟩ : ∃ bucket,
        mapGet (buildMasterIndex catalog).last8 (lastN 8 (normBarcode a)) = some bucket ∧
        2 ≤ bucket.length := by
      unfold bGet at h2
      cases hm : mapGet (buildMasterIndex catalog).last8 (lastN 8 (normBarcode a)) with
      | none => rw [hm] at h2; simp at h2
      | some l =>
        rw [hm] at h2
        exact ⟨l, rfl, by simpa using h2⟩
    have hloop : exactLoop (buildMasterIndex catalog).exact
        (tryExactList gtin14 gtin13 rawCode) = none := exactLoop_none _ _ hexact
    have hrt : rmsTier (buildMasterIndex catalog) rawCode = none := by
      unfold rmsTier
      split
      · rfl
      · exact hrms
    have hl8 : last8Tier (buildMasterIndex catalog) gtin14 = mresNone := by
      have hgE : gtin14.isEmpty = false := by
        cases gtin14 with
        | nil =>
          exfalso
          have hlen : (lastN 8 (normBarcode a)).length = 8 := by
            unfold lastN
            rw [List.length_drop]
            omega
          rw [← hhit] at hlen
          simp [lastN] at hlen
        | cons c t => rfl
      unfold last8Tier
      rw [hgE]
      simp only [Bool.false_eq_true, if_false]
      rw [hhit, hbk]
      have hn1 : ¬(bucket.length = 1) := by omega
      simp [hn1]
    simp [matchProduct, hloop, hrt, hl8]
  · revert hL8
    unfold matchProduct
    cases hE : exactLoop idx2.exact (tryExactList g14x g13x rawx) with
    | some nm =>
      intro h
      simp at h
    | none =>
      cases hR : rmsTier idx2 rawx with
      | some nm =>
        intro h
        simp at h
      | none =>
        unfold last8Tier
        cases hgE : g14x.isEmpty with
        | true =>
          intro h
          simp [mresNone] at h
        | false =>
          cases hm : mapGet idx2.last8 (lastN 8 g14x) with
          | none =>
            intro h
            simp [mresNone] at h
          | some l =>
            by_cases hl1 : l.length = 1
            · intro _
              exact ⟨l, rfl, hl1⟩
            · intro h
              simp [hl1, mresNone] at h

def c2itemA : MItem := { barcode := s2l "1111122222222", name := s2l "Alpha", rms := [] }
def c2itemB : MItem := { barcode := s2l "3333322222222", name := s2l "Beta", rms := [] }
def c2catalog : List MItem := [c2itemA, c2itemB]
def c2single : List MItem := [c2itemA]

theorem c2_witness :
    matchProduct (buildMasterIndex c2catalog) (s2l "99999922222222")
        (s2l "9999922222222") (s2l "7777") = mresNone ∧
    ∃ bucket, mapGet (buildMasterIndex c2single).last8
        (lastN 8 (s2l "88888822222222")) = some bucket ∧ bucket.length = 1 :=
  c2_last8_ambiguity c2catalog c2itemA c2itemB (s2l "99999922222222")
    (s2l "9999922222222") (s2l "7777") (buildMasterIndex c2single)
    (s2l "88888822222222") (s2l "8888822222222") (s2l "6666")
    (by decide) (by decide) (by decide) (by decide) (by decide) (by decide)
    (by decide) (by decide) (by decide) (by decide) (by decide) (by decide)

/-- Claim C7 (amended): every record whose `primaryCode` normalizes to a
non-empty code AND whose name is non-empty gets its three `exactByCode`
aliases (normalized code, 14-digit padded form, padded form with one leading
zero stripped when it starts with '0'); a record contributing neither code,
or lacking a name, is dropped — building without it gives the same index. -/
theorem c7_alias_registration
    (catalog : List MItem) (it : MItem) (pre post : List MItem) (r : MItem)
    (hmem : it ∈ catalog) (hbc : normBarcode it ≠ []) (hname : it.name ≠ [])
    (hdrop : (normBarcode r = [] ∧ normRms r = []) ∨ r.name = []) :
    ((mapGet (buildMasterIndex catalog).exact (normBarcode it)).isSome = true ∧
     (mapGet (buildMasterIndex catalog).exact (padStart14 (normBarcode it))).isSome = true ∧
     ((padStart14 (normBarcode it)).head? = some '0' →
       (mapGet (buildMasterIndex catalog).exact
         ((padStart14 (normBarcode it)).drop 1)).isSome = true)) ∧
    buildMasterIndex (pre ++ r :: post) = buildMasterIndex (pre ++ post) := by
  constructor
  · exact foldl_exact_has catalog emptyIdx it hmem hbc hname
  · have hskip : ∀ i : Idx, buildStep i r = i := by
      intro i
      unfold buildStep
      by_cases h1 : normBarcode r = [] ∧ normRms r = []
      · rw [if_pos h1]
      · rcases hdrop with h | h
        · exact absurd h h1
        · rw [if_neg h1, if_pos h]
    unfold buildMasterIndex
    rw [List.foldl_append, List.foldl_append, List.foldl_cons, hskip]

def c7badItem : MItem := { barcode := s2l "12345678", name := [], rms := [] }

/-- Claim C7 counterexample: the record `{barcode: "12345678", name: "",
rms: ""}` has a non-empty normalized primary code, yet the builder drops it
(its `continue` on an empty name fires first), so none of the three aliases
is registered. -/
theorem c7_counterexample :
    normBarcode c7badItem ≠ [] ∧
    mapGet (buildMasterIndex [c7badItem]).exact (normBarcode c7badItem) = none := by
  decide

def c7goodItem : MItem := { barcode := s2l "0123456789", name := s2l "Good", rms := [] }

theorem c7_witness :
    ((mapGet (buildMasterIndex [c7goodItem]).exact (normBarcode c7goodItem)).isSome = true ∧
     (mapGet (buildMasterIndex [c7goodItem]).exact
       (padStart14 (normBarcode c7goodItem))).isSome = true ∧
     ((padStart14 (normBarcode c7goodItem)).head? = some '0' →
       (mapGet (buildMasterIndex [c7goodItem]).exact
         ((padStart14 (normBarcode c7goodItem)).drop 1)).isSome = true)) ∧
    buildMasterIndex ([] ++ c7badItem :: []) = buildMasterIndex ([] ++ []) :=
  c7_alias_registration [c7goodItem] c7goodItem [] [] c7badItem (by decide)
    (by decide) (by decide) (by decide)
